import Mathlib

/-
  Verification development for the sequential-runner scoped virtual
  filesystem (src/taskcode/vfs.js, second TaskVFS class, lines 266-663)
  and its host tool dispatch layer (src/taskcode/host-tools.js, second
  HostTools class, lines 98-327).

  The JavaScript code is shallowly embedded: the on-disk filesystem is a
  pure state (an association list of file paths to contents plus a list of
  existing directories), Node path.posix string operations are translated
  directly, asynchronous operations become pure state-passing functions,
  and thrown errors become the error component of Except carrying the same
  message strings the source builds.  Environment-produced data that no
  claim observes (timestamps, event emission to EventEmitter listeners,
  byte encodings beyond utf8 strings, OS errno message suffixes) is
  omitted or simplified where noted in the comments.
-/

namespace SeqRunner

/- ===== String primitives =====
   The JavaScript string operations used by the source (startsWith,
   endsWith, split, trim, includes) are modelled over the character list
   of the string so that every definition evaluates inside the kernel. -/

/-- JavaScript s.startsWith(pre). -/
def strStartsWith (s pre : String) : Bool := pre.data.isPrefixOf s.data

/-- JavaScript s.endsWith(suf). -/
def strEndsWith (s suf : String) : Bool := suf.data.isSuffixOf s.data

/-- JavaScript s.includes(c) for one character. -/
def strContains (s : String) (c : Char) : Bool := s.data.contains c

/-- Split on one separator character, keeping empty pieces, as
JavaScript s.split(sep) and Node path parsing do. -/
def splitCharAux (c : Char) : List Char → List Char → List String
  | acc, [] => [String.mk acc.reverse]
  | acc, x :: xs =>
    if x = c then String.mk acc.reverse :: splitCharAux c [] xs
    else splitCharAux c (x :: acc) xs

/-- JavaScript s.split(c) for a one-character separator. -/
def splitChar (s : String) (c : Char) : List String := splitCharAux c [] s.data

/-- JavaScript s.trim(): strip leading and trailing whitespace. -/
def strTrim (s : String) : String :=
  String.mk (((s.data.dropWhile Char.isWhitespace).reverse.dropWhile
    Char.isWhitespace).reverse)

/- ===== Node path.posix primitives, as used by vfs.js ===== -/

/-- Segment normalization of Node path.posix.normalize: drop empty and
dot segments; a dotdot segment pops the previous segment, or is kept when
nothing can be popped and the path is relative (allowAboveRoot). -/
def normalizeSegs (allowAboveRoot : Bool) : List String → List String → List String
  | acc, [] => acc.reverse
  | acc, seg :: rest =>
    if seg = "" ∨ seg = "." then normalizeSegs allowAboveRoot acc rest
    else if seg = ".." then
      match acc with
      | top :: acc2 =>
        if top ≠ ".." then normalizeSegs allowAboveRoot acc2 rest
        else if allowAboveRoot then normalizeSegs allowAboveRoot (".." :: top :: acc2) rest
        else normalizeSegs allowAboveRoot (top :: acc2) rest
      | [] =>
        if allowAboveRoot then normalizeSegs allowAboveRoot [".."] rest
        else normalizeSegs allowAboveRoot [] rest
    else normalizeSegs allowAboveRoot (seg :: acc) rest

/-- Node path.posix.normalize on a nonempty input string. -/
def pathNormalize (p : String) : String :=
  if p.isEmpty then "." else
  let isAbs := strStartsWith p "/"
  let trailing := strEndsWith p "/"
  let body := String.intercalate "/" (normalizeSegs (!isAbs) [] (splitChar p '/'))
  let body := if body.isEmpty ∧ ¬ isAbs then "." else body
  let body := if ¬ body.isEmpty ∧ trailing then body ++ "/" else body
  if isAbs then "/" ++ body else body

/-- Node path.posix.join: empty parts are dropped, the rest are joined
with a separator and normalized. -/
def pathJoin (parts : List String) : String :=
  let kept := parts.filter (fun p => ¬ p.isEmpty)
  if kept.isEmpty then "." else pathNormalize (String.intercalate "/" kept)

/-- Scanner for Node path.posix.dirname, working on the reversed
character list: skip trailing separators, skip the final name, and return
the reversed prefix in front of the separator that ends it (none when no
such separator exists at an index of at least one). -/
def revDirname (rcs : List Char) : Option (List Char) :=
  match (rcs.dropWhile (fun c => c = '/')).dropWhile (fun c => c ≠ '/') with
  | [] => none
  | [_] => none
  | _ :: rest => some rest

/-- Node path.posix.dirname. -/
def dirname (p : String) : String :=
  if p.isEmpty then "." else
  let hasRoot := strStartsWith p "/"
  match revDirname p.data.reverse with
  | none => if hasRoot then "/" else "."
  | some rest => if hasRoot ∧ rest.length = 1 then "//" else String.mk rest.reverse

/-- Index of the last occurrence of a character in a list. -/
def lastIdxOf (c : Char) : List Char → Option Nat
  | [] => none
  | x :: xs =>
    match lastIdxOf c xs with
    | some i => some (i + 1)
    | none => if x = c then some 0 else none

/-- Node path.posix.extname on a directory entry name: the suffix from
the final dot, empty when there is no dot or the only dot leads the name.
(The basename split on separators is omitted because entry names contain
no separator; the all-dots corner cases of Node are not exercised by any
directory entry this development evaluates.) -/
def extname (name : String) : String :=
  match lastIdxOf '.' name.data with
  | none => ""
  | some 0 => ""
  | some i => String.mk (name.data.drop i)

/- ===== TaskVFS state ===== -/

/-- The filesystem-facing state of one TaskVFS instance: the three fixed
scope roots computed by the constructor, plus the local disk modelled as
an association list of files (full path to content) and a list of
existing directories. -/
structure VfsState where
  runRoot : String
  taskRoot : String
  globalRoot : String
  files : List (String × String)
  dirs : List String
deriving DecidableEq, Repr

/-- Lookup of this.scopes[scope]: the fixed table built in the
constructor with exactly the keys run, task and global. -/
def scopeRoot (st : VfsState) (scope : String) : Option String :=
  if scope = "run" then some st.runRoot
  else if scope = "task" then some st.taskRoot
  else if scope = "global" then some st.globalRoot
  else none

/-- Association list lookup for the file table. -/
def lookupFile (fs : List (String × String)) (k : String) : Option String :=
  match fs with
  | [] => none
  | e :: rest => if e.1 = k then some e.2 else lookupFile rest k

/-- Overwriting insert for the file table (fs.promises.writeFile replaces
the content of an existing file and creates a missing one). -/
def setFile (fs : List (String × String)) (k v : String) : List (String × String) :=
  match fs with
  | [] => [(k, v)]
  | e :: rest => if e.1 = k then (k, v) :: rest else e :: setFile rest k v

/-- fs.existsSync on a full path: true for a file or a directory. -/
def pathExists (st : VfsState) (p : String) : Bool :=
  (lookupFile st.files p).isSome || st.dirs.contains p

namespace TaskVFS

/-- TaskVFS._resolvePath (vfs.js lines 303-321): reject an unknown scope,
reject an empty or whitespace-only filepath, strip one leading separator,
join with the scope root, and reject a join result that does not retain
the scope root as a string prefix. -/
def resolvePath (st : VfsState) (filepath : String) (scope : String) : Except String String :=
  match scopeRoot st scope with
  | none => .error ("Invalid scope: " ++ scope ++ ". Valid scopes: run, task, global")
  | some root =>
    if strTrim filepath = "" then .error "Filepath cannot be empty"
    else
      let normalized := if strStartsWith filepath "/" then filepath.drop 1 else filepath
      let resolved := pathJoin [root, normalized]
      if strStartsWith resolved root then .ok resolved
      else .error ("Path traversal detected: " ++ filepath)

end TaskVFS

/-- mkdirSync / fs.promises.mkdir with recursive set: create the missing
ancestors of a directory, stopping at an already existing directory or at
a path without a parent; fail when a path on the chain already exists as
a file.  The fuel bounds the dirname chain, which shortens the path at
every step; callers pass enough fuel for the chain to finish. -/
def mkdirRecGo : Nat → VfsState → String → Except String VfsState
  | 0, st, _ => .ok st
  | fuel + 1, st, d =>
    if d = "" ∨ d = "." ∨ d = "/" then .ok st
    else if st.dirs.contains d then .ok st
    else if (lookupFile st.files d).isSome then
      .error ("EEXIST: file already exists, mkdir " ++ d)
    else
      match mkdirRecGo fuel st (dirname d) with
      | .error e => .error e
      | .ok st2 => .ok { st2 with dirs := d :: st2.dirs }

/-- Recursive directory creation with enough fuel for the dirname chain. -/
def ensureDir (st : VfsState) (d : String) : Except String VfsState :=
  mkdirRecGo (d.length + 2) st d

/-- The TaskVFS constructor (vfs.js lines 271-286): compute the three
scope roots from the ecosystem path and the identifiers, then ensure each
root directory exists (mkdirSync recursive).  The disk starts empty. -/
def mkTaskVFS (ecosystemPath taskId runId : String) : VfsState :=
  let base : VfsState :=
    { runRoot := pathJoin [ecosystemPath, "tasks", taskId, "runs", runId, "fs"]
      taskRoot := pathJoin [ecosystemPath, "tasks", taskId, "fs"]
      globalRoot := pathJoin [ecosystemPath, "vfs", "global"]
      files := []
      dirs := [] }
  let step : VfsState → String → VfsState := fun st d =>
    match ensureDir st d with
    | .ok st2 => st2
    | .error _ => st
  step (step (step base base.runRoot) base.taskRoot) base.globalRoot

/-- Result of TaskVFS.writeFile (success, path, scope, size, fullPath;
the emitted event timestamp is not modelled). -/
structure WriteRes where
  path : String
  scope : String
  size : Nat
  fullPath : String
deriving DecidableEq, Repr

/-- Result of TaskVFS.readFile (the modified time is not modelled). -/
structure ReadRes where
  content : String
  path : String
  scope : String
  size : Nat
  fullPath : String
deriving DecidableEq, Repr

/-- One directory entry produced by TaskVFS.listFiles: name, logical
path, scope, size, full path, and (for files only) the extension field
the source adds; modification and creation times are not modelled. -/
structure Entry where
  name : String
  path : String
  scope : String
  size : Nat
  fullPath : String
  extension : Option String
deriving DecidableEq, Repr

/-- Result of TaskVFS.listFiles. -/
structure ListRes where
  path : String
  scope : String
  files : List Entry
  directories : List Entry
  total : Nat
deriving DecidableEq, Repr

/-- Result of TaskVFS.deleteFile. -/
structure DeleteRes where
  path : String
  scope : String
deriving DecidableEq, Repr

/-- Result of TaskVFS.stat (times are not modelled). -/
structure StatRes where
  path : String
  scope : String
  size : Nat
  isDirectory : Bool
  isFile : Bool
  fullPath : String
deriving DecidableEq, Repr

/-- Result of TaskVFS.mkdir. -/
structure MkdirRes where
  path : String
  scope : String
  fullPath : String
deriving DecidableEq, Repr

/-- The payload TaskVFS.watch passes to its callback for one underlying
fs.watch notification (the timestamp is not modelled). -/
structure WatchEvent where
  event : String
  filename : String
  path : String
  scope : String
deriving DecidableEq, Repr

/-- Options object of TaskVFS.writeFile.  The encoding is carried but
does not change the model, which stores contents as utf8 strings. -/
structure WriteOptions where
  encoding : String := "utf8"
  append : Bool := false
deriving DecidableEq, Repr

namespace TaskVFS

/-- TaskVFS.writeFile (vfs.js lines 323-368): resolve the path, ensure
the parent directory exists, optionally concatenate onto an existing
file when append is set, store the content, and report its size.  Any
failure is rethrown with the uniform prefix.  Structured (non-string)
content values are outside this model, which takes content as a string.
The state is returned alongside the outcome so that partial directory
creation before a failure survives, as on a real disk. -/
def writeFile (st : VfsState) (filepath content scope : String)
    (options : WriteOptions) : VfsState × Except String WriteRes :=
  match resolvePath st filepath scope with
  | .error e => (st, .error ("Failed to write file " ++ filepath ++ ": " ++ e))
  | .ok fullPath =>
    let dir := dirname fullPath
    let ensured : Except String VfsState :=
      if pathExists st dir then .ok st else ensureDir st dir
    match ensured with
    | .error e => (st, .error ("Failed to write file " ++ filepath ++ ": " ++ e))
    | .ok st1 =>
      if st1.dirs.contains fullPath then
        -- fs.promises.writeFile on a directory raises EISDIR
        (st1, .error ("Failed to write file " ++ filepath ++
          ": EISDIR: illegal operation on a directory, open " ++ fullPath))
      else if (lookupFile st1.files dir).isSome then
        -- the parent exists as a file: open raises ENOTDIR
        (st1, .error ("Failed to write file " ++ filepath ++
          ": ENOTDIR: not a directory, open " ++ fullPath))
      else
        let finalContent :=
          if options.append ∧ (lookupFile st1.files fullPath).isSome then
            ((lookupFile st1.files fullPath).getD "") ++ content
          else content
        ({ st1 with files := setFile st1.files fullPath finalContent },
         .ok { path := filepath, scope, size := finalContent.utf8ByteSize, fullPath })

/-- The loop body of TaskVFS.readFile over the scopes to search,
accumulating the per-scope failure reasons in order. -/
def readGo (st : VfsState) (filepath : String) (isAuto : Bool) :
    List String → List String → Except String ReadRes
  | errors, [] =>
    .error ("File not found: " ++ filepath ++ ". Searched: " ++
      String.intercalate ", " errors)
  | errors, s :: rest =>
    match resolvePath st filepath s with
    | .error e =>
      if isAuto then readGo st filepath isAuto (errors ++ [s ++ ": " ++ e]) rest
      else .error ("Failed to read file " ++ filepath ++ ": " ++ e)
    | .ok fullPath =>
      if pathExists st fullPath = false then
        readGo st filepath isAuto (errors ++ ["Not found in " ++ s ++ " scope"]) rest
      else
        match lookupFile st.files fullPath with
        | some c =>
          .ok { content := c, path := filepath, scope := s,
                size := c.utf8ByteSize, fullPath }
        | none =>
          -- the resolved path exists as a directory: readFile raises EISDIR
          let e := "EISDIR: illegal operation on a directory, read"
          if isAuto then readGo st filepath isAuto (errors ++ [s ++ ": " ++ e]) rest
          else .error ("Failed to read file " ++ filepath ++ ": " ++ e)

/-- TaskVFS.readFile (vfs.js lines 370-416): with scope auto probe run,
task and global in that order, treating a miss as a reason to try the
next scope; with a concrete scope probe only it and rethrow its failure
immediately; when every probed scope misses, fail with the aggregated
File-not-found message. -/
def readFile (st : VfsState) (filepath scope : String) : Except String ReadRes :=
  let searchScopes := if scope = "auto" then ["run", "task", "global"] else [scope]
  readGo st filepath (scope = "auto") [] searchScopes

/-- The immediate children of a directory in the modelled disk, in model
order (directories first, then files), as (name, isDirectory, size). -/
def childName (fullPath p : String) : Option String :=
  let pre := fullPath ++ "/"
  if strStartsWith p pre then
    let rest := p.drop pre.length
    if rest ≠ "" ∧ strContains rest '/' = false then some rest else none
  else none

/-- fs.promises.readdir on the modelled disk. -/
def readdirEntries (st : VfsState) (fullPath : String) : List (String × Bool × Nat) :=
  (st.dirs.filterMap (fun d => (childName fullPath d).map (fun n => (n, true, 0))))
  ++ (st.files.filterMap (fun e =>
        (childName fullPath e.1).map (fun n => (n, false, e.2.utf8ByteSize))))

/-- The entry-building loop of TaskVFS.listFiles: each readdir entry
becomes an item with the joined logical and full paths; directories and
files go to separate collections, files additionally get an extension. -/
def mkEntries (dirpath scope fullPath : String) :
    List (String × Bool × Nat) → List Entry × List Entry
  | [] => ([], [])
  | (n, isDir, sz) :: rest =>
    let (fs, ds) := mkEntries dirpath scope fullPath rest
    let item : Entry :=
      { name := n, path := pathJoin [dirpath, n], scope, size := sz,
        fullPath := pathJoin [fullPath, n],
        extension := if isDir then none else some (extname n) }
    if isDir then (fs, item :: ds) else (item :: fs, ds)

/-- TaskVFS.listFiles (vfs.js lines 418-471): resolve the directory, a
missing directory yields empty collections rather than an error, an
existing directory yields its immediate children split into files and
directories with total their count. -/
def listFiles (st : VfsState) (dirpath scope : String) : Except String ListRes :=
  match resolvePath st dirpath scope with
  | .error e => .error ("Failed to list files in " ++ dirpath ++ ": " ++ e)
  | .ok fullPath =>
    if pathExists st fullPath = false then
      .ok { path := dirpath, scope, files := [], directories := [], total := 0 }
    else if st.dirs.contains fullPath = false then
      -- the resolved path exists as a file: readdir raises ENOTDIR
      .error ("Failed to list files in " ++ dirpath ++
        ": ENOTDIR: not a directory, scandir " ++ fullPath)
    else
      let (fileEntries, dirEntries) :=
        mkEntries dirpath scope fullPath (readdirEntries st fullPath)
      .ok { path := dirpath, scope, files := fileEntries,
            directories := dirEntries,
            total := fileEntries.length + dirEntries.length }

/-- TaskVFS.deleteFile (vfs.js lines 473-503): fail when the resolved
path does not exist; remove a directory together with every descendant
(fs.promises.rm recursive), or remove a single file (unlink). -/
def deleteFile (st : VfsState) (filepath scope : String) :
    VfsState × Except String DeleteRes :=
  match resolvePath st filepath scope with
  | .error e => (st, .error ("Failed to delete " ++ filepath ++ ": " ++ e))
  | .ok fullPath =>
    if pathExists st fullPath = false then
      (st, .error ("Failed to delete " ++ filepath ++ ": File not found: " ++ filepath))
    else if st.dirs.contains fullPath then
      ({ st with
          dirs := st.dirs.filter
            (fun d => ! (d == fullPath || strStartsWith d (fullPath ++ "/")))
          files := st.files.filter
            (fun e => ! strStartsWith e.1 (fullPath ++ "/")) },
       .ok { path := filepath, scope })
    else
      ({ st with files := st.files.filter (fun e => ! (e.1 == fullPath)) },
       .ok { path := filepath, scope })

/-- TaskVFS.exists (vfs.js lines 505-512): a total boolean; every
resolution error is caught and reported as false. -/
def existsFile (st : VfsState) (filepath scope : String) : Bool :=
  match resolvePath st filepath scope with
  | .error _ => false
  | .ok fullPath => pathExists st fullPath

/-- TaskVFS.stat (vfs.js lines 514-538). -/
def stat (st : VfsState) (filepath scope : String) : Except String StatRes :=
  match resolvePath st filepath scope with
  | .error e => .error ("Failed to stat " ++ filepath ++ ": " ++ e)
  | .ok fullPath =>
    if pathExists st fullPath = false then
      .error ("Failed to stat " ++ filepath ++ ": File not found: " ++ filepath)
    else
      .ok { path := filepath, scope,
            size := (match lookupFile st.files fullPath with
                     | some c => c.utf8ByteSize
                     | none => 0),
            isDirectory := st.dirs.contains fullPath,
            isFile := (lookupFile st.files fullPath).isSome,
            fullPath }

/-- TaskVFS.mkdir (vfs.js lines 540-551): recursive creation through
fs.promises.mkdir. -/
def mkdir (st : VfsState) (dirpath scope : String) :
    VfsState × Except String MkdirRes :=
  match resolvePath st dirpath scope with
  | .error e => (st, .error ("Failed to create directory " ++ dirpath ++ ": " ++ e))
  | .ok fullPath =>
    match ensureDir st fullPath with
    | .error e => (st, .error ("Failed to create directory " ++ dirpath ++ ": " ++ e))
    | .ok st2 => (st2, .ok { path := dirpath, scope, fullPath })

/-- TaskVFS.watch (vfs.js lines 553-584): fail when the path does not
currently exist, otherwise arm fs.watch and feed every underlying
(eventType, filename) notification to the callback.  The model takes the
stream of underlying notifications as a list and returns the list of
callback payloads in order; the returned handle only closes the watcher
and is modelled away. -/
def watch (st : VfsState) (filepath scope : String)
    (fsEvents : List (String × String)) : Except String (List WatchEvent) :=
  match resolvePath st filepath scope with
  | .error e => .error ("Failed to watch " ++ filepath ++ ": " ++ e)
  | .ok fullPath =>
    if pathExists st fullPath = false then
      .error ("Failed to watch " ++ filepath ++
        ": Cannot watch non-existent path: " ++ filepath)
    else
      .ok (fsEvents.map (fun tf =>
        { event := tf.1, filename := tf.2, path := filepath, scope }))

end TaskVFS

/- ===== HostTools (host-tools.js, second class, lines 98-327) ===== -/

/-- A parameter value in a tool call: the claims only exercise string
and boolean parameter values. -/
inductive PVal where
  | s (v : String)
  | b (v : Bool)
deriving DecidableEq, Repr

/-- The flat parameter mapping of one tool call. -/
structure Params where
  entries : List (String × PVal)
deriving DecidableEq, Repr

/-- The JavaScript test (key in params). -/
def Params.hasKey (prm : Params) (k : String) : Bool :=
  prm.entries.any (fun e => e.1 == k)

/-- Destructuring a string parameter with a default: the default applies
when the key is absent (a present non-string value never occurs in the
scenarios this development evaluates). -/
def Params.getStr (prm : Params) (k : String) (dflt : String) : String :=
  match prm.entries.find? (fun e => e.1 == k) with
  | some (_, .s v) => v
  | _ => dflt

/-- Destructuring a boolean parameter with a default. -/
def Params.getBool (prm : Params) (k : String) (dflt : Bool) : Bool :=
  match prm.entries.find? (fun e => e.1 == k) with
  | some (_, .b v) => v
  | _ => dflt

/-- HostTools._validateParams (host-tools.js lines 118-123): collect
every required key that is absent and throw one error naming all of
them; note that the callers run this outside their try blocks. -/
def validateParams (prm : Params) (required : List String) : Except String Unit :=
  if (required.filter (fun k => ! prm.hasKey k)).length > 0 then
    .error ("Missing required parameters: " ++
      String.intercalate ", " (required.filter (fun k => ! prm.hasKey k)))
  else .ok ()

/-- The value a host tool call produces when it returns (rather than
throws): either the tool-specific success object or the uniform
failure envelope with success false, the error message, the tool name
and the echoed path and scope parameters. -/
inductive ToolRes where
  | writeOk (path scope : String) (size : Nat) (fullPath : String)
  | readOk (content path scope : String) (size : Nat) (fullPath : String)
  | listOk (path scope : String) (files directories : List Entry) (total : Nat)
  | deleteOk (path scope : String)
  | existsRes (ex : Bool) (path scope : String)
  | statOk (path scope : String) (size : Nat) (isDirectory isFile : Bool) (fullPath : String)
  | mkdirOk (path scope fullPath : String)
  | watchOk (event : WatchEvent) (path scope : String)
  | failure (error tool path scope : String)
deriving DecidableEq, Repr

/-- The success flag of the returned envelope. -/
def ToolRes.success : ToolRes → Bool
  | .failure _ _ _ _ => false
  | _ => true

namespace HostTools

/-- HostTools.writeFile (host-tools.js lines 125-140): validation runs
before the try block, so a missing parameter is thrown (the error half
of Except); a failure of the underlying VFS call is caught and returned
as the failure envelope. -/
def writeFile (st : VfsState) (prm : Params) : VfsState × Except String ToolRes :=
  match validateParams prm ["path", "content"] with
  | .error e => (st, .error e)
  | .ok _ =>
    let path := prm.getStr "path" ""
    let content := prm.getStr "content" ""
    let scope := prm.getStr "scope" "run"
    let encoding := prm.getStr "encoding" "utf8"
    let append := prm.getBool "append" false
    match TaskVFS.writeFile st path content scope { encoding, append } with
    | (st2, .ok r) => (st2, .ok (.writeOk r.path r.scope r.size r.fullPath))
    | (st2, .error e) => (st2, .ok (.failure e "writeFile" path scope))

/-- HostTools.readFile (host-tools.js lines 142-157); the default scope
is auto. -/
def readFile (st : VfsState) (prm : Params) : Except String ToolRes :=
  match validateParams prm ["path"] with
  | .error e => .error e
  | .ok _ =>
    let path := prm.getStr "path" ""
    let scope := prm.getStr "scope" "auto"
    match TaskVFS.readFile st path scope with
    | .ok r => .ok (.readOk r.content r.path r.scope r.size r.fullPath)
    | .error e => .ok (.failure e "readFile" path scope)

mutual

/-- HostTools.listFiles (host-tools.js lines 159-188): list the
directory, and when recursive is set walk result.directories while the
loop body keeps appending the sub-listing results to it (a JavaScript
for-of iteration observes elements pushed during the loop), merging each
successful sub-listing and silently skipping failed ones.  The fuel
bounds the walk; none models a call that has not finished within it. -/
def listFiles : Nat → VfsState → String → String → Bool → Option ToolRes
  | 0, _, _, _, _ => none
  | fuel + 1, st, path, scope, recursive =>
    match TaskVFS.listFiles st path scope with
    | .error e => some (.failure e "listFiles" path scope)
    | .ok r =>
      if recursive ∧ ¬ r.directories.isEmpty then
        match listWalk fuel st scope r.files r.directories r.directories with
        | none => none
        | some (fs, ds) => some (.listOk r.path r.scope fs ds r.total)
      else
        some (.listOk r.path r.scope r.files r.directories r.total)

/-- The iteration of HostTools.listFiles over the growing directories
array: accF and accD mirror result.files and result.directories, and the
queue holds the elements the for-of iterator has not visited yet. -/
def listWalk : Nat → VfsState → String → List Entry → List Entry → List Entry →
    Option (List Entry × List Entry)
  | _, _, _, accF, accD, [] => some (accF, accD)
  | 0, _, _, _, _, _ :: _ => none
  | fuel + 1, st, scope, accF, accD, d :: queue =>
    match listFiles fuel st d.path scope true with
    | none => none
    | some (.listOk _ _ fs ds _) =>
      listWalk fuel st scope (accF ++ fs) (accD ++ ds) (queue ++ ds)
    | some _ =>
      -- a failed sub-listing has success false and is skipped
      listWalk fuel st scope accF accD queue

end

/-- HostTools.deleteFile (host-tools.js lines 190-205). -/
def deleteFile (st : VfsState) (prm : Params) : VfsState × Except String ToolRes :=
  match validateParams prm ["path"] with
  | .error e => (st, .error e)
  | .ok _ =>
    let path := prm.getStr "path" ""
    let scope := prm.getStr "scope" "run"
    match TaskVFS.deleteFile st path scope with
    | (st2, .ok r) => (st2, .ok (.deleteOk r.path r.scope))
    | (st2, .error e) => (st2, .ok (.failure e "deleteFile" path scope))

/-- HostTools.fileExists (host-tools.js lines 207-223): validation still
runs (and throws) before the try block; the body never fails because
TaskVFS.exists is total, so the catch branch is dead code. -/
def fileExists (st : VfsState) (prm : Params) : VfsState × Except String ToolRes :=
  match validateParams prm ["path"] with
  | .error e => (st, .error e)
  | .ok _ =>
    let path := prm.getStr "path" ""
    let scope := prm.getStr "scope" "run"
    (st, .ok (.existsRes (TaskVFS.existsFile st path scope) path scope))

/-- HostTools.fileStat (host-tools.js lines 225-240). -/
def fileStat (st : VfsState) (prm : Params) : Except String ToolRes :=
  match validateParams prm ["path"] with
  | .error e => .error e
  | .ok _ =>
    let path := prm.getStr "path" ""
    let scope := prm.getStr "scope" "run"
    match TaskVFS.stat st path scope with
    | .ok r => .ok (.statOk r.path r.scope r.size r.isDirectory r.isFile r.fullPath)
    | .error e => .ok (.failure e "fileStat" path scope)

/-- HostTools.mkdir (host-tools.js lines 242-257). -/
def mkdir (st : VfsState) (prm : Params) : VfsState × Except String ToolRes :=
  match validateParams prm ["path"] with
  | .error e => (st, .error e)
  | .ok _ =>
    let path := prm.getStr "path" ""
    let scope := prm.getStr "scope" "run"
    match TaskVFS.mkdir st path scope with
    | (st2, .ok r) => (st2, .ok (.mkdirOk r.path r.scope r.fullPath))
    | (st2, .error e) => (st2, .ok (.failure e "mkdir" path scope))

/-- HostTools.watchFile (host-tools.js lines 259-278): the promise
resolves with the first callback payload and later resolve calls are
ignored, so at most one event reaches the caller; a synchronous throw of
TaskVFS.watch rejects the promise inside the try and becomes the failure
envelope.  none models a promise that never settles (no event fires);
the watch handle with its close function is not part of the result. -/
def watchFile (st : VfsState) (prm : Params)
    (fsEvents : List (String × String)) : Except String (Option ToolRes) :=
  match validateParams prm ["path"] with
  | .error e => .error e
  | .ok _ =>
    let path := prm.getStr "path" ""
    let scope := prm.getStr "scope" "run"
    match TaskVFS.watch st path scope fsEvents with
    | .error e => .ok (some (.failure e "watchFile" path scope))
    | .ok evs => .ok (evs.head?.map (fun ev => .watchOk ev path scope))

end HostTools

/- ===== Example instance used by concrete evaluations ===== -/

/-- A concrete TaskVFS instance for witnesses and counterexamples. -/
def exState : VfsState := mkTaskVFS "eco" "t1" "r1"

/- ===== General helper lemmas ===== -/

theorem strAppendAssoc (a b c : String) : a ++ b ++ c = a ++ (b ++ c) := by
  apply String.ext
  simp [String.data_append, List.append_assoc]

theorem scopeRootRootsEq (st1 st2 : VfsState) (s : String)
    (h1 : st1.runRoot = st2.runRoot) (h2 : st1.taskRoot = st2.taskRoot)
    (h3 : st1.globalRoot = st2.globalRoot) :
    scopeRoot st1 s = scopeRoot st2 s := by
  unfold scopeRoot
  rw [h1, h2, h3]

theorem resolvePathRootsEq (st1 st2 : VfsState) (fp s : String)
    (h1 : st1.runRoot = st2.runRoot) (h2 : st1.taskRoot = st2.taskRoot)
    (h3 : st1.globalRoot = st2.globalRoot) :
    TaskVFS.resolvePath st1 fp s = TaskVFS.resolvePath st2 fp s := by
  unfold TaskVFS.resolvePath
  rw [scopeRootRootsEq st1 st2 s h1 h2 h3]

theorem resolveOkScopeNeAuto (st : VfsState) (fp full : String) (scope : String)
    (h : TaskVFS.resolvePath st fp scope = .ok full) : scope ≠ "auto" := by
  intro hs
  subst hs
  simp [TaskVFS.resolvePath, scopeRoot] at h

theorem lookupSetFileSelf (fs : List (String × String)) (k v : String) :
    lookupFile (setFile fs k v) k = some v := by
  induction fs with
  | nil => simp [setFile, lookupFile]
  | cons e rest ih =>
    by_cases he : e.1 = k
    · simp [setFile, he, lookupFile]
    · simp [setFile, he, lookupFile, ih]

theorem lookupFilterOfNone (fs : List (String × String)) (f : String × String → Bool)
    (k : String) (h : lookupFile fs k = none) :
    lookupFile (fs.filter f) k = none := by
  induction fs with
  | nil => rfl
  | cons e rest ih =>
    rw [lookupFile] at h
    by_cases he : e.1 = k
    · simp [he] at h
    · simp only [he, if_false, if_neg he] at h
      by_cases hf : f e
      · rw [List.filter_cons_of_pos hf, lookupFile, if_neg he]
        exact ih h
      · rw [List.filter_cons_of_neg hf]
        exact ih h

theorem lookupFilterKeyFalse (fs : List (String × String)) (f : String × String → Bool)
    (k : String) (h : ∀ v, f (k, v) = false) :
    lookupFile (fs.filter f) k = none := by
  induction fs with
  | nil => rfl
  | cons e rest ih =>
    by_cases hf : f e
    · rw [List.filter_cons_of_pos hf, lookupFile]
      have he : ¬ e.1 = k := by
        intro hek
        have : f (k, e.2) = false := h e.2
        rw [← hek] at this
        rw [show ((e.1, e.2) : String × String) = e from rfl] at this
        rw [this] at hf
        exact Bool.false_ne_true hf
      rw [if_neg he]
      exact ih
    · rw [List.filter_cons_of_neg hf]
      exact ih

theorem lookupFilterKeyTrue (fs : List (String × String)) (f : String × String → Bool)
    (k : String) (h : ∀ v, f (k, v) = true) :
    lookupFile (fs.filter f) k = lookupFile fs k := by
  induction fs with
  | nil => rfl
  | cons e rest ih =>
    by_cases he : e.1 = k
    · have hf : f e = true := by
        have : f (k, e.2) = true := h e.2
        rw [← he] at this
        exact this
      rw [List.filter_cons_of_pos hf, lookupFile, lookupFile, if_pos he, if_pos he]
    · by_cases hf : f e
      · rw [List.filter_cons_of_pos hf, lookupFile, lookupFile, if_neg he, if_neg he]
        exact ih
      · rw [List.filter_cons_of_neg hf, lookupFile, if_neg he]
        exact ih

theorem containsFilterFalse (l : List String) (f : String → Bool) (x : String)
    (hf : f x = false) : (l.filter f).contains x = false := by
  rw [← Bool.not_eq_true]
  intro hc
  have hm : x ∈ l.filter f := by
    rw [List.contains] at hc
    exact List.elem_iff.mp hc
  have := (List.mem_filter.mp hm).2
  rw [hf] at this
  exact Bool.false_ne_true this

theorem containsFalseOfNotMem (l : List String) (x : String) (h : x ∉ l) :
    l.contains x = false := by
  rw [← Bool.not_eq_true]
  intro hc
  exact h (List.elem_iff.mp hc)

theorem memOfContainsTrue (l : List String) (x : String) (h : l.contains x = true) :
    x ∈ l := List.elem_iff.mp h

/- ===== Lemmas about dirname and recursive directory creation ===== -/

theorem lengthDropWhileLe (p : Char → Bool) (l : List Char) :
    (l.dropWhile p).length ≤ l.length := by
  induction l with
  | nil => simp
  | cons a t ih =>
    rw [List.dropWhile_cons]
    by_cases hp : p a
    · simp only [hp, if_true]
      exact le_trans ih (Nat.le_succ _)
    · simp [hp]

theorem dropWhileNilOrHeadFalse (p : Char → Bool) (l : List Char) :
    l.dropWhile p = [] ∨ ∃ a t, l.dropWhile p = a :: t ∧ p a = false := by
  induction l with
  | nil => left; rfl
  | cons a t ih =>
    rw [List.dropWhile_cons]
    by_cases hp : p a
    · simp only [hp, if_true]
      exact ih
    · right
      exact ⟨a, t, by simp [hp], by simp [hp]⟩

theorem revDirnameShort (rcs : List Char) (rest : List Char)
    (h : revDirname rcs = some rest) : rest.length < rcs.length := by
  have h1 : (rcs.dropWhile (fun c => c = '/')).length ≤ rcs.length :=
    lengthDropWhileLe _ _
  have h2 : ((rcs.dropWhile (fun c => c = '/')).dropWhile (fun c => c ≠ '/')).length
      ≤ (rcs.dropWhile (fun c => c = '/')).length := lengthDropWhileLe _ _
  unfold revDirname at h
  rcases hm : (rcs.dropWhile (fun c => c = '/')).dropWhile (fun c => c ≠ '/') with
    _ | ⟨a, tl⟩
  · rw [hm] at h; exact absurd h (by simp)
  · rcases tl with _ | ⟨b, rest2⟩
    · rw [hm] at h; exact absurd h (by simp)
    · rw [hm] at h
      simp only [Option.some.injEq] at h
      subst h
      rw [hm] at h2
      simp only [List.length_cons] at h2 ⊢
      omega

theorem revDirnameLong (rcs : List Char) (rest : List Char)
    (h : revDirname rcs = some rest) : rest.length + 2 ≤ rcs.length := by
  have h1 : (rcs.dropWhile (fun c => c = '/')).length ≤ rcs.length :=
    lengthDropWhileLe _ _
  unfold revDirname at h
  rcases hhead : rcs.dropWhile (fun c => c = '/') with _ | ⟨c0, t⟩
  · rw [hhead] at h
    exact absurd h (by simp [List.dropWhile])
  · have hc0 : (fun c => decide (c = '/')) c0 = false := by
      rcases dropWhileNilOrHeadFalse (fun c => c = '/') rcs with hnil | ⟨a, t2, hat, ha⟩
      · rw [hnil] at hhead
        exact absurd hhead (by simp)
      · rw [hat] at hhead
        injection hhead with e1 e2
        rw [← e1]
        exact ha
    have hkeep : (fun c => decide (c ≠ '/')) c0 = true := by
      simp only [ne_eq, decide_not, hc0]
      rfl
    have hr2 : (rcs.dropWhile (fun c => c = '/')).dropWhile (fun c => c ≠ '/')
        = t.dropWhile (fun c => c ≠ '/') := by
      rw [hhead, List.dropWhile_cons, if_pos hkeep]
    rw [hr2] at h
    have h2 : (t.dropWhile (fun c => c ≠ '/')).length ≤ t.length :=
      lengthDropWhileLe _ _
    rcases hm : t.dropWhile (fun c => c ≠ '/') with _ | ⟨a2, tl⟩
    · rw [hm] at h; exact absurd h (by simp)
    · rcases tl with _ | ⟨b, rest2⟩
      · rw [hm] at h; exact absurd h (by simp)
      · rw [hm] at h
        simp only [Option.some.injEq] at h
        subst h
        rw [hm] at h2
        simp only [List.length_cons] at h2 ⊢
        have ht : (c0 :: t).length ≤ rcs.length := by rw [← hhead]; exact h1
        simp only [List.length_cons] at ht
        omega

theorem dirnameShort (p : String) :
    dirname p = "." ∨ dirname p = "/" ∨ (dirname p).length < p.length := by
  unfold dirname
  by_cases hp : p.isEmpty
  · simp [hp]
  · simp only [hp, if_false, Bool.false_eq_true]
    match hr : revDirname p.data.reverse with
    | none =>
      by_cases hroot : strStartsWith p "/" = true
      · simp [hroot]
      · simp [hroot]
    | some rest =>
      have hshort : rest.length < p.data.reverse.length := revDirnameShort _ _ hr
      have hlong : rest.length + 2 ≤ p.data.reverse.length := revDirnameLong _ _ hr
      rw [List.length_reverse] at hshort hlong
      by_cases hcase : strStartsWith p "/" = true ∧ rest.length = 1
      · right; right
        show (if strStartsWith p "/" = true ∧ rest.length = 1 then ("//" : String)
          else { data := rest.reverse }).length < p.length
        rw [if_pos hcase]
        show ("//" : String).length < p.length
        have hpl : p.length = p.data.length := rfl
        rw [hpl]
        have h2 : ("//" : String).length = 2 := rfl
        omega
      · right; right
        show (if strStartsWith p "/" = true ∧ rest.length = 1 then ("//" : String)
          else { data := rest.reverse }).length < p.length
        rw [if_neg hcase]
        show (String.mk rest.reverse).length < p.length
        have h1 : (String.mk rest.reverse).length = rest.length := by
          show rest.reverse.length = rest.length
          exact List.length_reverse _
        have h2 : p.length = p.data.length := rfl
        omega

theorem mkdirGoTerminal (fuel : Nat) (st : VfsState) (d : String)
    (h : d = "" ∨ d = "." ∨ d = "/") : mkdirRecGo fuel st d = .ok st := by
  cases fuel with
  | zero => rfl
  | succ n =>
    rw [mkdirRecGo]
    rw [if_pos h]

theorem mkdirGoPreserves (fuel : Nat) (st : VfsState) (d : String) (st2 : VfsState)
    (h : mkdirRecGo fuel st d = .ok st2) :
    st2.runRoot = st.runRoot ∧ st2.taskRoot = st.taskRoot ∧
    st2.globalRoot = st.globalRoot ∧ st2.files = st.files := by
  induction fuel generalizing st d st2 with
  | zero =>
    rw [mkdirRecGo] at h
    cases h
    exact ⟨rfl, rfl, rfl, rfl⟩
  | succ n ih =>
    rw [mkdirRecGo] at h
    split at h
    · cases h; exact ⟨rfl, rfl, rfl, rfl⟩
    · split at h
      · cases h; exact ⟨rfl, rfl, rfl, rfl⟩
      · split at h
        · exact absurd h (by simp)
        · split at h
          · exact absurd h (by simp)
          · rename_i st3 hst3
            cases h
            exact ih st (dirname d) st3 hst3

theorem mkdirGoDirsMono (fuel : Nat) (st : VfsState) (d : String) (st2 : VfsState)
    (h : mkdirRecGo fuel st d = .ok st2) :
    ∀ x, x ∈ st.dirs → x ∈ st2.dirs := by
  induction fuel generalizing st d st2 with
  | zero =>
    rw [mkdirRecGo] at h
    cases h
    exact fun x hx => hx
  | succ n ih =>
    rw [mkdirRecGo] at h
    split at h
    · cases h; exact fun x hx => hx
    · split at h
      · cases h; exact fun x hx => hx
      · split at h
        · exact absurd h (by simp)
        · split at h
          · exact absurd h (by simp)
          · rename_i st3 hst3
            cases h
            intro x hx
            exact List.mem_cons_of_mem _ (ih st (dirname d) st3 hst3 x hx)

theorem mkdirGoNewBounded (fuel : Nat) (st : VfsState) (d : String) (st2 : VfsState)
    (h : mkdirRecGo fuel st d = .ok st2) :
    ∀ x, x ∈ st2.dirs → x ∈ st.dirs ∨ x.length ≤ d.length := by
  induction fuel generalizing st d st2 with
  | zero =>
    rw [mkdirRecGo] at h
    cases h
    exact fun x hx => Or.inl hx
  | succ n ih =>
    rw [mkdirRecGo] at h
    split at h
    · cases h; exact fun x hx => Or.inl hx
    · split at h
      · cases h; exact fun x hx => Or.inl hx
      · split at h
        · exact absurd h (by simp)
        · split at h
          · exact absurd h (by simp)
          · rename_i st3 hst3
            cases h
            intro x hx
            rcases List.mem_cons.mp hx with hxd | hx3
            · right; rw [hxd]
            · rcases dirnameShort d with hterm | hterm | hlt
              · have : mkdirRecGo n st (dirname d) = .ok st :=
                  mkdirGoTerminal n st _ (Or.inr (Or.inl hterm))
                rw [this] at hst3
                cases hst3
                exact Or.inl hx3
              · have : mkdirRecGo n st (dirname d) = .ok st :=
                  mkdirGoTerminal n st _ (Or.inr (Or.inr hterm))
                rw [this] at hst3
                cases hst3
                exact Or.inl hx3
              · rcases ih st (dirname d) st3 hst3 x hx3 with hin | hle
                · exact Or.inl hin
                · right; omega

theorem mkdirGoNodup (fuel : Nat) (st : VfsState) (d : String) (st2 : VfsState)
    (h : mkdirRecGo fuel st d = .ok st2) (hnd : st.dirs.Nodup) :
    st2.dirs.Nodup := by
  induction fuel generalizing st d st2 with
  | zero =>
    rw [mkdirRecGo] at h
    cases h
    exact hnd
  | succ n ih =>
    rw [mkdirRecGo] at h
    split at h
    · cases h; exact hnd
    · split at h
      · cases h; exact hnd
      · rename_i hterm hcont
        split at h
        · exact absurd h (by simp)
        · split at h
          · exact absurd h (by simp)
          · rename_i st3 hst3
            cases h
            have hnd3 : st3.dirs.Nodup := ih st (dirname d) st3 hst3 hnd
            rw [List.nodup_cons]
            refine ⟨?_, hnd3⟩
            intro hmem
            have hnotmem : d ∉ st.dirs := by
              intro hmemst
              exact hcont (List.elem_iff.mpr hmemst)
            rcases dirnameShort d with hterm | hterm | hlt
            · have : mkdirRecGo n st (dirname d) = .ok st :=
                mkdirGoTerminal n st _ (Or.inr (Or.inl hterm))
              rw [this] at hst3
              cases hst3
              exact hnotmem hmem
            · have : mkdirRecGo n st (dirname d) = .ok st :=
                mkdirGoTerminal n st _ (Or.inr (Or.inr hterm))
              rw [this] at hst3
              cases hst3
              exact hnotmem hmem
            · rcases mkdirGoNewBounded n st (dirname d) st3 hst3 d hmem with hin | hle
              · exact hnotmem hin
              · omega

theorem mkdirGoIdem (fuel : Nat) (st : VfsState) (d : String) (st2 : VfsState)
    (h : mkdirRecGo fuel st d = .ok st2) : mkdirRecGo fuel st2 d = .ok st2 := by
  cases fuel with
  | zero =>
    rw [mkdirRecGo] at h
    cases h
    rfl
  | succ n =>
    rw [mkdirRecGo] at h
    split at h
    · rename_i hterm
      cases h
      rw [mkdirRecGo, if_pos hterm]
    · rename_i hterm
      split at h
      · rename_i hcont
        cases h
        rw [mkdirRecGo, if_neg hterm, if_pos hcont]
      · split at h
        · exact absurd h (by simp)
        · split at h
          · exact absurd h (by simp)
          · rename_i st3 hst3
            cases h
            rw [mkdirRecGo, if_neg hterm]
            have hc2 : ({ st3 with dirs := d :: st3.dirs } : VfsState).dirs.contains d
                = true := by
              simp [List.contains, List.elem_iff]
            rw [if_pos hc2]

theorem mkdirGoMem (fuel : Nat) (st : VfsState) (d : String) (st2 : VfsState)
    (h : mkdirRecGo (fuel + 1) st d = .ok st2)
    (hterm : ¬ (d = "" ∨ d = "." ∨ d = "/")) : d ∈ st2.dirs := by
  rw [mkdirRecGo] at h
  rw [if_neg hterm] at h
  split at h
  · rename_i hcont
    cases h
    exact List.elem_iff.mp hcont
  · split at h
    · exact absurd h (by simp)
    · split at h
      · exact absurd h (by simp)
      · rename_i st3 hst3
        cases h
        exact List.mem_cons_self _ _

theorem resolvePathEmpty (st : VfsState) (p scope root : String)
    (hroot : scopeRoot st scope = some root) (hp : strTrim p = "") :
    TaskVFS.resolvePath st p scope = .error "Filepath cannot be empty" := by
  unfold TaskVFS.resolvePath
  simp only [hroot]
  rw [if_pos hp]

theorem validateParamsPasses (prm : Params) (required : List String)
    (h : required.filter (fun k => ! prm.hasKey k) = []) :
    validateParams prm required = .ok () := by
  unfold validateParams
  rw [h]
  simp

/- ===== Claim C1 ===== -/

/-- Claim C1 counterexample: the claim states that every logical path
containing a dotdot segment, and every absolute path, fails resolution
with PathTraversal in every scope.  In fact a dotdot segment that stays
inside the scope root resolves successfully after normalization, and an
absolute path has its leading separator stripped and resolves inside the
scope root, so neither fails. -/
theorem C1_counterexample :
    (splitChar "a/../b" '/' = ["a", "..", "b"])
    ∧ TaskVFS.resolvePath exState "a/../b" "run" = .ok "eco/tasks/t1/runs/r1/fs/b"
    ∧ (strStartsWith "/abs.txt" "/" = true)
    ∧ TaskVFS.resolvePath exState "/abs.txt" "run"
        = .ok "eco/tasks/t1/runs/r1/fs/abs.txt" := by
  refine ⟨?_, ?_, ?_, ?_⟩ <;> rfl

/-- Claim C1 amended: resolution fails with PathTraversal exactly when
the normalized join does not retain the scope root as a string prefix;
every successful resolution retains the scope root as a string prefix
(the path-containment check of TaskVFS._resolvePath), and a path whose
dotdot segments escape the root is rejected. -/
theorem C1_amended :
    (∀ (st : VfsState) (fp scope full root : String),
        scopeRoot st scope = some root →
        TaskVFS.resolvePath st fp scope = .ok full →
        strStartsWith full root = true)
    ∧ (∀ (st : VfsState) (fp scope root : String),
        scopeRoot st scope = some root →
        ¬ strTrim fp = "" →
        strStartsWith (pathJoin [root, if strStartsWith fp "/" then fp.drop 1 else fp])
          root = false →
        TaskVFS.resolvePath st fp scope = .error ("Path traversal detected: " ++ fp))
    ∧ TaskVFS.resolvePath exState "../../x" "run"
        = .error "Path traversal detected: ../../x" := by
  refine ⟨?_, ?_, by rfl⟩
  · intro st fp scope full root hroot h
    unfold TaskVFS.resolvePath at h
    simp only [hroot] at h
    by_cases ht : strTrim fp = ""
    · rw [if_pos ht] at h
      exact absurd h (by simp)
    · rw [if_neg ht] at h
      by_cases hs : strStartsWith
          (pathJoin [root, if strStartsWith fp "/" then fp.drop 1 else fp]) root = true
      · rw [if_pos hs] at h
        simp only [Except.ok.injEq] at h
        rw [← h]
        exact hs
      · rw [if_neg hs] at h
        exact absurd h (by simp)
  · intro st fp scope root hroot ht hs
    unfold TaskVFS.resolvePath
    simp only [hroot]
    rw [if_neg ht, if_neg (by rw [hs]; simp)]

/-- Claim C1 witness: a successful resolution whose result retains the
run scope root as prefix, and a concrete escaping path rejected with
PathTraversal. -/
theorem C1_witness :
    (strStartsWith "eco/tasks/t1/runs/r1/fs/notes.txt" "eco/tasks/t1/runs/r1/fs" = true)
    ∧ TaskVFS.resolvePath exState "../../x" "run"
        = .error ("Path traversal detected: " ++ "../../x") :=
  ⟨C1_amended.1 exState "notes.txt" "run" "eco/tasks/t1/runs/r1/fs/notes.txt"
      "eco/tasks/t1/runs/r1/fs" (by rfl) (by rfl),
   C1_amended.2.1 exState "../../x" "run" "eco/tasks/t1/runs/r1/fs" (by rfl)
      (by decide) (by rfl)⟩

/- ===== Claim C3 ===== -/

/-- Claim C3 counterexample: a writeFile tool call with no path parameter
does not return a MissingParameters envelope; HostTools.writeFile runs
_validateParams outside its try block, so the MissingParameters error is
thrown to the caller (the error half of Except), though it does name
every absent key. -/
theorem C3_counterexample :
    HostTools.writeFile exState ⟨[("content", .s "x")]⟩
      = (exState, .error "Missing required parameters: path")
    ∧ HostTools.writeFile exState ⟨[]⟩
      = (exState, .error "Missing required parameters: path, content") :=
  ⟨rfl, rfl⟩

/-- Claim C3 amended: every tool call missing required parameters fails
fast with one MissingParameters error naming every absent key, but that
error is thrown (propagated as a rejected promise), not wrapped in the
success-false envelope, for writeFile and equally for readFile,
deleteFile, fileStat, mkdir, watchFile and fileExists; only failures
raised by the underlying VFS call are caught and converted into the
envelope. -/
theorem C3_amended :
    (∀ (st : VfsState) (prm : Params),
        (["path", "content"].filter (fun k => ! prm.hasKey k)).length > 0 →
        HostTools.writeFile st prm =
          (st, .error ("Missing required parameters: " ++
            String.intercalate ", " (["path", "content"].filter (fun k => ! prm.hasKey k)))))
    ∧ (∀ (st st2 : VfsState) (prm : Params) (e : String),
        prm.hasKey "path" = true → prm.hasKey "content" = true →
        TaskVFS.writeFile st (prm.getStr "path" "") (prm.getStr "content" "")
          (prm.getStr "scope" "run")
          { encoding := prm.getStr "encoding" "utf8",
            append := prm.getBool "append" false } = (st2, .error e) →
        HostTools.writeFile st prm =
          (st2, .ok (.failure e "writeFile" (prm.getStr "path" "")
            (prm.getStr "scope" "run"))))
    ∧ (∀ (st : VfsState) (prm : Params),
        (["path"].filter (fun k => ! prm.hasKey k)).length > 0 →
        HostTools.readFile st prm =
          .error ("Missing required parameters: " ++
            String.intercalate ", " (["path"].filter (fun k => ! prm.hasKey k))))
    ∧ (∀ (st : VfsState) (prm : Params),
        (["path"].filter (fun k => ! prm.hasKey k)).length > 0 →
        HostTools.deleteFile st prm =
          (st, .error ("Missing required parameters: " ++
            String.intercalate ", " (["path"].filter (fun k => ! prm.hasKey k)))))
    ∧ (∀ (st : VfsState) (prm : Params),
        (["path"].filter (fun k => ! prm.hasKey k)).length > 0 →
        HostTools.fileStat st prm =
          .error ("Missing required parameters: " ++
            String.intercalate ", " (["path"].filter (fun k => ! prm.hasKey k))))
    ∧ (∀ (st : VfsState) (prm : Params),
        (["path"].filter (fun k => ! prm.hasKey k)).length > 0 →
        HostTools.mkdir st prm =
          (st, .error ("Missing required parameters: " ++
            String.intercalate ", " (["path"].filter (fun k => ! prm.hasKey k)))))
    ∧ (∀ (st : VfsState) (prm : Params) (evs : List (String × String)),
        (["path"].filter (fun k => ! prm.hasKey k)).length > 0 →
        HostTools.watchFile st prm evs =
          .error ("Missing required parameters: " ++
            String.intercalate ", " (["path"].filter (fun k => ! prm.hasKey k))))
    ∧ (∀ (st : VfsState) (prm : Params),
        (["path"].filter (fun k => ! prm.hasKey k)).length > 0 →
        HostTools.fileExists st prm =
          (st, .error ("Missing required parameters: " ++
            String.intercalate ", " (["path"].filter (fun k => ! prm.hasKey k))))) := by
  refine ⟨?_, ?_, ?_, ?_, ?_, ?_, ?_, ?_⟩
  · intro st prm hmiss
    unfold HostTools.writeFile validateParams
    rw [if_pos hmiss]
  · intro st st2 prm e hp hc hw
    unfold HostTools.writeFile
    have hv : validateParams prm ["path", "content"] = .ok () :=
      validateParamsPasses prm ["path", "content"] (by simp [List.filter, hp, hc])
    simp only [hv, hw]
  · intro st prm hmiss
    unfold HostTools.readFile validateParams
    rw [if_pos hmiss]
  · intro st prm hmiss
    unfold HostTools.deleteFile validateParams
    rw [if_pos hmiss]
  · intro st prm hmiss
    unfold HostTools.fileStat validateParams
    rw [if_pos hmiss]
  · intro st prm hmiss
    unfold HostTools.mkdir validateParams
    rw [if_pos hmiss]
  · intro st prm evs hmiss
    unfold HostTools.watchFile validateParams
    rw [if_pos hmiss]
  · intro st prm hmiss
    unfold HostTools.fileExists validateParams
    rw [if_pos hmiss]

/-- Claim C3 witness: a writeFile call with only content missing path is
thrown MissingParameters naming path; a call whose path is present but
empty reaches the VFS and its failure comes back as the envelope; and
every other tool with a required path equally throws MissingParameters
on empty params. -/
theorem C3_witness :
    HostTools.writeFile exState ⟨[("content", .s "x")]⟩
      = (exState, .error ("Missing required parameters: " ++
          String.intercalate ", " (["path", "content"].filter
            (fun k => ! (Params.mk [("content", .s "x")]).hasKey k))))
    ∧ HostTools.writeFile exState ⟨[("path", .s ""), ("content", .s "x")]⟩
      = (exState, .ok (.failure "Failed to write file : Filepath cannot be empty"
          "writeFile" "" "run"))
    ∧ HostTools.readFile exState ⟨[]⟩
      = .error ("Missing required parameters: " ++
          String.intercalate ", " (["path"].filter
            (fun k => ! (Params.mk []).hasKey k)))
    ∧ HostTools.deleteFile exState ⟨[]⟩
      = (exState, .error ("Missing required parameters: " ++
          String.intercalate ", " (["path"].filter
            (fun k => ! (Params.mk []).hasKey k))))
    ∧ HostTools.fileStat exState ⟨[]⟩
      = .error ("Missing required parameters: " ++
          String.intercalate ", " (["path"].filter
            (fun k => ! (Params.mk []).hasKey k)))
    ∧ HostTools.mkdir exState ⟨[]⟩
      = (exState, .error ("Missing required parameters: " ++
          String.intercalate ", " (["path"].filter
            (fun k => ! (Params.mk []).hasKey k))))
    ∧ HostTools.watchFile exState ⟨[]⟩ [("change", "x")]
      = .error ("Missing required parameters: " ++
          String.intercalate ", " (["path"].filter
            (fun k => ! (Params.mk []).hasKey k)))
    ∧ HostTools.fileExists exState ⟨[]⟩
      = (exState, .error ("Missing required parameters: " ++
          String.intercalate ", " (["path"].filter
            (fun k => ! (Params.mk []).hasKey k)))) :=
  ⟨C3_amended.1 exState ⟨[("content", .s "x")]⟩ (by decide),
   C3_amended.2.1 exState exState ⟨[("path", .s ""), ("content", .s "x")]⟩
      "Failed to write file : Filepath cannot be empty" rfl rfl (by rfl),
   C3_amended.2.2.1 exState ⟨[]⟩ (by decide),
   C3_amended.2.2.2.1 exState ⟨[]⟩ (by decide),
   C3_amended.2.2.2.2.1 exState ⟨[]⟩ (by decide),
   C3_amended.2.2.2.2.2.1 exState ⟨[]⟩ (by decide),
   C3_amended.2.2.2.2.2.2.1 exState ⟨[]⟩ [("change", "x")] (by decide),
   C3_amended.2.2.2.2.2.2.2 exState ⟨[]⟩ (by decide)⟩

/- ===== Claim C5 ===== -/

/-- Claim C5 counterexample: the claim states the fileExists host tool
never fails for every input; a call whose params lack the path key is
thrown a MissingParameters error because validation runs outside the try
block, so it does not return the success envelope. -/
theorem C5_counterexample :
    HostTools.fileExists exState ⟨[]⟩
      = (exState, .error "Missing required parameters: path") := rfl

/-- Claim C5 amended: TaskVFS.exists is total and treats every
resolution error as false; the fileExists host tool, on any call whose
params contain the path key, always returns the success-true envelope
with the boolean (its catch branch is unreachable), and it never returns
a failure envelope; a call without the path key throws MissingParameters
like every other tool. -/
theorem C5_amended :
    (∀ (st : VfsState) (fp scope e : String),
        TaskVFS.resolvePath st fp scope = .error e →
        TaskVFS.existsFile st fp scope = false)
    ∧ (∀ (st : VfsState) (prm : Params), prm.hasKey "path" = true →
        HostTools.fileExists st prm =
          (st, .ok (.existsRes
            (TaskVFS.existsFile st (prm.getStr "path" "") (prm.getStr "scope" "run"))
            (prm.getStr "path" "") (prm.getStr "scope" "run"))))
    ∧ (∀ (st st2 : VfsState) (prm : Params) (r : ToolRes),
        HostTools.fileExists st prm = (st2, .ok r) → r.success = true) := by
  refine ⟨?_, ?_, ?_⟩
  · intro st fp scope e h
    unfold TaskVFS.existsFile
    rw [h]
  · intro st prm hp
    unfold HostTools.fileExists
    have hv : validateParams prm ["path"] = .ok () :=
      validateParamsPasses prm ["path"] (by simp [List.filter, hp])
    simp only [hv]
  · intro st st2 prm r h
    unfold HostTools.fileExists at h
    cases hv : validateParams prm ["path"] with
    | error e =>
      simp only [hv] at h
      exact absurd h (by simp)
    | ok u =>
      cases u
      simp only [hv] at h
      have : ToolRes.existsRes
          (TaskVFS.existsFile st (prm.getStr "path" "") (prm.getStr "scope" "run"))
          (prm.getStr "path" "") (prm.getStr "scope" "run") = r := by
        have := h.symm
        simp only [Prod.mk.injEq] at this
        exact (Except.ok.injEq _ _ ▸ this.2.symm : _)
      rw [← this]
      rfl

/-- Claim C5 witness: a traversal path reports false rather than an
error, and a present path key always produces the success envelope. -/
theorem C5_witness :
    TaskVFS.existsFile exState "../../x" "run" = false
    ∧ HostTools.fileExists exState ⟨[("path", .s "../../x")]⟩
        = (exState, .ok (.existsRes
            (TaskVFS.existsFile exState "../../x" "run") "../../x" "run")) :=
  ⟨C5_amended.1 exState "../../x" "run" "Path traversal detected: ../../x" (by rfl),
   C5_amended.2.1 exState ⟨[("path", .s "../../x")]⟩ rfl⟩

/- ===== Claim C8 ===== -/

/-- Claim C8: mkdir is idempotent.  When a mkdir call succeeds, running
it again on the resulting state succeeds with the same result and leaves
the state unchanged, and on a duplicate-free state the created directory
is present exactly once. -/
theorem C8_theorem (st st2 : VfsState) (p scope : String) (r : MkdirRes)
    (h : TaskVFS.mkdir st p scope = (st2, .ok r)) (hnd : st.dirs.Nodup) :
    TaskVFS.mkdir st2 p scope = (st2, .ok r)
    ∧ st2.dirs.Nodup
    ∧ (¬ (r.fullPath = "" ∨ r.fullPath = "." ∨ r.fullPath = "/") →
        st2.dirs.count r.fullPath = 1) := by
  unfold TaskVFS.mkdir at h
  cases hres : TaskVFS.resolvePath st p scope with
  | error e =>
    simp only [hres] at h
    exact absurd h (by simp)
  | ok full =>
    simp only [hres] at h
    cases hens : ensureDir st full with
    | error e =>
      simp only [hens] at h
      exact absurd h (by simp)
    | ok st3 =>
      simp only [hens, Prod.mk.injEq, Except.ok.injEq] at h
      obtain ⟨h1, h2⟩ := h
      subst h1
      subst h2
      unfold ensureDir at hens
      have pres := mkdirGoPreserves _ _ _ _ hens
      refine ⟨?_, mkdirGoNodup _ _ _ _ hens hnd, ?_⟩
      · unfold TaskVFS.mkdir
        have hres2 : TaskVFS.resolvePath st3 p scope = .ok full := by
          rw [resolvePathRootsEq st3 st p scope pres.1 pres.2.1 pres.2.2.1]
          exact hres
        simp only [hres2]
        have hens2 : ensureDir st3 full = .ok st3 := by
          unfold ensureDir
          exact mkdirGoIdem _ _ _ _ hens
        simp only [hens2]
      · intro hterm
        have hmem : full ∈ st3.dirs := mkdirGoMem (full.length + 1) st full st3 hens hterm
        exact List.count_eq_one_of_mem (mkdirGoNodup _ _ _ _ hens hnd) hmem

/-- Claim C8 witness: creating x/y in the run scope twice returns the
same result and state, and leaves the directory present once. -/
theorem C8_witness :
    TaskVFS.mkdir (TaskVFS.mkdir exState "x/y" "run").1 "x/y" "run"
      = ((TaskVFS.mkdir exState "x/y" "run").1,
         .ok { path := "x/y", scope := "run",
               fullPath := "eco/tasks/t1/runs/r1/fs/x/y" })
    ∧ (TaskVFS.mkdir exState "x/y" "run").1.dirs.Nodup
    ∧ (TaskVFS.mkdir exState "x/y" "run").1.dirs.count "eco/tasks/t1/runs/r1/fs/x/y"
        = 1 := by
  have h := C8_theorem exState (TaskVFS.mkdir exState "x/y" "run").1 "x/y" "run"
    { path := "x/y", scope := "run", fullPath := "eco/tasks/t1/runs/r1/fs/x/y" }
    (by rfl) (by decide)
  exact ⟨h.1, h.2.1, h.2.2 (by decide)⟩

/- ===== Claim C9 ===== -/

/-- Claim C9: the watchFile host tool is one-shot.  On an existing path
the returned promise settles exactly when the first underlying change
notification fires, resolving to the success envelope built from that
first event; no later event is delivered and the watch handle (close)
is not part of the result. -/
theorem C9_theorem (st : VfsState) (prm : Params)
    (fsEvents : List (String × String)) (full : String)
    (hkey : prm.hasKey "path" = true)
    (hres : TaskVFS.resolvePath st (prm.getStr "path" "") (prm.getStr "scope" "run")
      = .ok full)
    (hex : pathExists st full = true) :
    HostTools.watchFile st prm fsEvents =
      .ok (fsEvents.head?.map (fun tf =>
        ToolRes.watchOk
          { event := tf.1, filename := tf.2,
            path := prm.getStr "path" "", scope := prm.getStr "scope" "run" }
          (prm.getStr "path" "") (prm.getStr "scope" "run"))) := by
  unfold HostTools.watchFile
  have hv : validateParams prm ["path"] = .ok () :=
    validateParamsPasses prm ["path"] (by simp [List.filter, hkey])
  simp only [hv]
  have hw : TaskVFS.watch st (prm.getStr "path" "") (prm.getStr "scope" "run") fsEvents
      = .ok (fsEvents.map (fun tf =>
          { event := tf.1, filename := tf.2,
            path := prm.getStr "path" "", scope := prm.getStr "scope" "run" })) := by
    unfold TaskVFS.watch
    simp only [hres]
    rw [if_neg (by rw [hex]; simp)]
  simp only [hw, List.head?_map, Option.map_map]
  rfl

/-- Claim C9 witness: watching the run scope root with two underlying
events delivers exactly the first as the success envelope. -/
theorem C9_witness :
    HostTools.watchFile exState ⟨[("path", .s "/")]⟩ [("change", "x"), ("rename", "y")]
      = .ok (some (.watchOk
          { event := "change", filename := "x", path := "/", scope := "run" }
          "/" "run")) :=
  C9_theorem exState ⟨[("path", .s "/")]⟩ [("change", "x"), ("rename", "y")]
    "eco/tasks/t1/runs/r1/fs" rfl (by rfl) (by rfl)

/- ===== Claim C10 ===== -/

/-- Claim C10 counterexample: the claim states that for every tool
requiring a path, an empty path passes validation and the failure then
surfaces as a success-false envelope.  fileExists is the exception: the
empty path passes validation, but no failure surfaces at all; the
resolution error is swallowed by TaskVFS.exists and the tool returns
the success-true envelope with exists false. -/
theorem C10_counterexample :
    HostTools.fileExists exState ⟨[("path", .s "")]⟩
      = (exState, .ok (.existsRes false "" "run"))
    ∧ ToolRes.success (.existsRes false "" "run") = true := ⟨rfl, rfl⟩

/-- Claim C10 amended: for writeFile, readFile, deleteFile, fileStat,
mkdir and watchFile, a present but empty (or whitespace-only) path
passes parameter validation and the empty-filepath resolution error
comes back as the success-false envelope mentioning the empty filepath;
fileExists also passes validation but returns the success-true envelope
with exists false instead of a failure envelope. -/
theorem C10_amended (st : VfsState) (p c : String)
    (evs : List (String × String)) (hp : strTrim p = "") :
    HostTools.writeFile st ⟨[("path", .s p), ("content", .s c)]⟩
      = (st, .ok (.failure ("Failed to write file " ++ p ++ ": " ++
          "Filepath cannot be empty") "writeFile" p "run"))
    ∧ HostTools.readFile st ⟨[("path", .s p)]⟩
      = .ok (.failure ("File not found: " ++ p ++ ". Searched: " ++
          String.intercalate ", " ["run: Filepath cannot be empty",
            "task: Filepath cannot be empty", "global: Filepath cannot be empty"])
          "readFile" p "auto")
    ∧ HostTools.deleteFile st ⟨[("path", .s p)]⟩
      = (st, .ok (.failure ("Failed to delete " ++ p ++ ": " ++
          "Filepath cannot be empty") "deleteFile" p "run"))
    ∧ HostTools.fileStat st ⟨[("path", .s p)]⟩
      = .ok (.failure ("Failed to stat " ++ p ++ ": " ++
          "Filepath cannot be empty") "fileStat" p "run")
    ∧ HostTools.mkdir st ⟨[("path", .s p)]⟩
      = (st, .ok (.failure ("Failed to create directory " ++ p ++ ": " ++
          "Filepath cannot be empty") "mkdir" p "run"))
    ∧ HostTools.watchFile st ⟨[("path", .s p)]⟩ evs
      = .ok (some (.failure ("Failed to watch " ++ p ++ ": " ++
          "Filepath cannot be empty") "watchFile" p "run"))
    ∧ HostTools.fileExists st ⟨[("path", .s p)]⟩
      = (st, .ok (.existsRes false p "run")) := by
  have hrun : TaskVFS.resolvePath st p "run" = .error "Filepath cannot be empty" :=
    resolvePathEmpty st p "run" st.runRoot rfl hp
  have htask : TaskVFS.resolvePath st p "task" = .error "Filepath cannot be empty" :=
    resolvePathEmpty st p "task" st.taskRoot rfl hp
  have hglobal : TaskVFS.resolvePath st p "global" = .error "Filepath cannot be empty" :=
    resolvePathEmpty st p "global" st.globalRoot rfl hp
  refine ⟨?_, ?_, ?_, ?_, ?_, ?_, ?_⟩
  · show (match TaskVFS.writeFile st p c "run"
        { encoding := "utf8", append := false } with
      | (st2, Except.ok r) =>
          (st2, Except.ok (ToolRes.writeOk r.path r.scope r.size r.fullPath))
      | (st2, Except.error e) =>
          (st2, Except.ok (ToolRes.failure e "writeFile" p "run"))) = _
    unfold TaskVFS.writeFile
    simp only [hrun]
  · show (match TaskVFS.readFile st p "auto" with
      | Except.ok r =>
          Except.ok (ToolRes.readOk r.content r.path r.scope r.size r.fullPath)
      | Except.error e => Except.ok (ToolRes.failure e "readFile" p "auto")) = _
    have hrd : TaskVFS.readFile st p "auto"
        = TaskVFS.readGo st p true [] ["run", "task", "global"] := rfl
    rw [hrd]
    simp only [TaskVFS.readGo, hrun, htask, hglobal]
    simp only [List.nil_append, List.cons_append, List.append_nil, if_true]
    rfl
  · show (match TaskVFS.deleteFile st p "run" with
      | (st2, Except.ok r) => (st2, Except.ok (ToolRes.deleteOk r.path r.scope))
      | (st2, Except.error e) =>
          (st2, Except.ok (ToolRes.failure e "deleteFile" p "run"))) = _
    unfold TaskVFS.deleteFile
    simp only [hrun]
  · show (match TaskVFS.stat st p "run" with
      | Except.ok r =>
          Except.ok (ToolRes.statOk r.path r.scope r.size r.isDirectory r.isFile
            r.fullPath)
      | Except.error e => Except.ok (ToolRes.failure e "fileStat" p "run")) = _
    unfold TaskVFS.stat
    simp only [hrun]
  · show (match TaskVFS.mkdir st p "run" with
      | (st2, Except.ok r) => (st2, Except.ok (ToolRes.mkdirOk r.path r.scope r.fullPath))
      | (st2, Except.error e) =>
          (st2, Except.ok (ToolRes.failure e "mkdir" p "run"))) = _
    unfold TaskVFS.mkdir
    simp only [hrun]
  · show (match TaskVFS.watch st p "run" evs with
      | Except.error e => Except.ok (some (ToolRes.failure e "watchFile" p "run"))
      | Except.ok evs2 =>
          Except.ok (evs2.head?.map (fun ev => ToolRes.watchOk ev p "run"))) = _
    unfold TaskVFS.watch
    simp only [hrun]
  · show ((st, Except.ok (ToolRes.existsRes (TaskVFS.existsFile st p "run") p "run"))
        : VfsState × Except String ToolRes) = _
    unfold TaskVFS.existsFile
    simp only [hrun]

/- ===== Claim C4 ===== -/

/-- Claim C4: write/read round trip.  Whenever a writeFile call with
default options (no append) succeeds in a concrete scope, reading the
same logical path back in the same scope succeeds and returns exactly
the written content, with its byte size and the resolved full path. -/
theorem C4_theorem (st st2 : VfsState) (fp content scope : String) (r : WriteRes)
    (h : TaskVFS.writeFile st fp content scope {} = (st2, .ok r)) :
    TaskVFS.readFile st2 fp scope =
      .ok { content := content, path := fp, scope := scope,
            size := content.utf8ByteSize, fullPath := r.fullPath } := by
  have hne : scope ≠ "auto" := by
    intro hs
    rw [hs] at h
    unfold TaskVFS.writeFile at h
    simp [TaskVFS.resolvePath, scopeRoot] at h
  unfold TaskVFS.writeFile at h
  cases hres : TaskVFS.resolvePath st fp scope with
  | error e =>
    simp only [hres] at h
    exact absurd h (by simp)
  | ok full =>
    simp only [hres] at h
    cases hens : (if pathExists st (dirname full) = true then Except.ok st
        else ensureDir st (dirname full)) with
    | error e =>
      simp only [hens] at h
      exact absurd h (by simp)
    | ok st1 =>
      simp only [hens] at h
      by_cases hc1 : st1.dirs.contains full = true
      · rw [if_pos hc1] at h
        exact absurd h (by simp)
      · rw [if_neg hc1] at h
        by_cases hc2 : (lookupFile st1.files (dirname full)).isSome = true
        · rw [if_pos hc2] at h
          exact absurd h (by simp)
        · rw [if_neg hc2] at h
          have hnap : ¬ ((({} : WriteOptions).append = true)
              ∧ ((lookupFile st1.files full).isSome = true)) := by
            rintro ⟨ha, -⟩
            exact absurd ha (by decide)
          rw [if_neg hnap] at h
          simp only [Prod.mk.injEq, Except.ok.injEq] at h
          obtain ⟨h1, h2⟩ := h
          subst h1
          subst h2
          have hroots : st1.runRoot = st.runRoot ∧ st1.taskRoot = st.taskRoot
              ∧ st1.globalRoot = st.globalRoot := by
            by_cases hd : pathExists st (dirname full) = true
            · rw [if_pos hd] at hens
              injection hens with he
              rw [← he]
              exact ⟨rfl, rfl, rfl⟩
            · rw [if_neg hd] at hens
              unfold ensureDir at hens
              have hpr := mkdirGoPreserves _ _ _ _ hens
              exact ⟨hpr.1, hpr.2.1, hpr.2.2.1⟩
          have hres2 : TaskVFS.resolvePath
              ({ st1 with files := setFile st1.files full content } : VfsState)
              fp scope = .ok full :=
            (resolvePathRootsEq _ st fp scope hroots.1 hroots.2.1 hroots.2.2).trans hres
          have hlook : lookupFile (setFile st1.files full content) full
              = some content := lookupSetFileSelf _ _ _
          have hpe : pathExists
              ({ st1 with files := setFile st1.files full content } : VfsState)
              full = true := by
            unfold pathExists
            rw [hlook]
            rfl
          have hrf : TaskVFS.readFile
              ({ st1 with files := setFile st1.files full content } : VfsState) fp scope
              = TaskVFS.readGo ({ st1 with files := setFile st1.files full content })
                  fp (decide (scope = "auto")) [] [scope] := by
            unfold TaskVFS.readFile
            rw [if_neg hne]
          rw [hrf]
          simp only [TaskVFS.readGo, hres2]
          rw [if_neg (by rw [hpe]; simp)]
          simp only [hlook]

/-- Claim C4 witness: writing hello to notes/a.txt in the task scope and
reading it back in the task scope returns hello with size five. -/
theorem C4_witness :
    TaskVFS.readFile (TaskVFS.writeFile exState "notes/a.txt" "hello" "task" {}).1
        "notes/a.txt" "task" =
      .ok { content := "hello", path := "notes/a.txt", scope := "task",
            size := 5, fullPath := "eco/tasks/t1/fs/notes/a.txt" } :=
  C4_theorem exState (TaskVFS.writeFile exState "notes/a.txt" "hello" "task" {}).1
    "notes/a.txt" "hello" "task"
    { path := "notes/a.txt", scope := "task", size := 5,
      fullPath := "eco/tasks/t1/fs/notes/a.txt" }
    (by rfl)

/- ===== Claim C2 ===== -/

/-- A miss of one scope during a read probe: the resolved full path is
neither a file nor a directory. -/
def scopeMiss (st : VfsState) (full : String) : Prop :=
  lookupFile st.files full = none ∧ st.dirs.contains full = false

theorem readGoHit (st : VfsState) (fp s : String) (b : Bool)
    (errors : List String) (rest : List String) (full c : String)
    (hres : TaskVFS.resolvePath st fp s = .ok full)
    (hc : lookupFile st.files full = some c) :
    TaskVFS.readGo st fp b errors (s :: rest)
      = .ok { content := c, path := fp, scope := s,
              size := c.utf8ByteSize, fullPath := full } := by
  have hpe : pathExists st full = true := by
    unfold pathExists
    rw [hc]
    rfl
  simp only [TaskVFS.readGo, hres]
  rw [if_neg (by rw [hpe]; simp)]
  simp only [hc]

theorem readGoMiss (st : VfsState) (fp s : String) (b : Bool)
    (errors : List String) (rest : List String) (full : String)
    (hres : TaskVFS.resolvePath st fp s = .ok full)
    (hm : scopeMiss st full) :
    TaskVFS.readGo st fp b errors (s :: rest)
      = TaskVFS.readGo st fp b (errors ++ ["Not found in " ++ s ++ " scope"]) rest := by
  have hpe : pathExists st full = false := by
    unfold pathExists
    rw [hm.1, hm.2]
    rfl
  simp only [TaskVFS.readGo, hres]
  rw [if_pos hpe]

/-- Claim C2: read with scope auto probes run, task and global in that
fixed order and returns the first hit (a path present in run and global
yields the run copy); a miss advances to the next scope; when all three
miss the read fails with the aggregated File-not-found message; with a
concrete scope a miss is immediately the File-not-found error naming
only that scope. -/
theorem C2_theorem (st : VfsState) (fp : String) :
    (∀ full c, TaskVFS.resolvePath st fp "run" = .ok full →
        lookupFile st.files full = some c →
        TaskVFS.readFile st fp "auto"
          = .ok { content := c, path := fp, scope := "run",
                  size := c.utf8ByteSize, fullPath := full })
    ∧ (∀ fr ft c, TaskVFS.resolvePath st fp "run" = .ok fr → scopeMiss st fr →
        TaskVFS.resolvePath st fp "task" = .ok ft →
        lookupFile st.files ft = some c →
        TaskVFS.readFile st fp "auto"
          = .ok { content := c, path := fp, scope := "task",
                  size := c.utf8ByteSize, fullPath := ft })
    ∧ (∀ fr ft fg c, TaskVFS.resolvePath st fp "run" = .ok fr → scopeMiss st fr →
        TaskVFS.resolvePath st fp "task" = .ok ft → scopeMiss st ft →
        TaskVFS.resolvePath st fp "global" = .ok fg →
        lookupFile st.files fg = some c →
        TaskVFS.readFile st fp "auto"
          = .ok { content := c, path := fp, scope := "global",
                  size := c.utf8ByteSize, fullPath := fg })
    ∧ (∀ fr ft fg, TaskVFS.resolvePath st fp "run" = .ok fr → scopeMiss st fr →
        TaskVFS.resolvePath st fp "task" = .ok ft → scopeMiss st ft →
        TaskVFS.resolvePath st fp "global" = .ok fg → scopeMiss st fg →
        TaskVFS.readFile st fp "auto"
          = .error ("File not found: " ++ fp ++ ". Searched: " ++
              String.intercalate ", " ["Not found in run scope",
                "Not found in task scope", "Not found in global scope"]))
    ∧ (∀ s full, (s = "run" ∨ s = "task" ∨ s = "global") →
        TaskVFS.resolvePath st fp s = .ok full → scopeMiss st full →
        TaskVFS.readFile st fp s
          = .error ("File not found: " ++ fp ++ ". Searched: " ++
              String.intercalate ", " ["Not found in " ++ s ++ " scope"])) := by
  have hauto : TaskVFS.readFile st fp "auto"
      = TaskVFS.readGo st fp true [] ["run", "task", "global"] := rfl
  refine ⟨?_, ?_, ?_, ?_, ?_⟩
  · intro full c h1 h2
    rw [hauto]
    exact readGoHit st fp "run" true [] _ full c h1 h2
  · intro fr ft c h1 hm1 h2 h3
    rw [hauto, readGoMiss st fp "run" true [] _ fr h1 hm1]
    exact readGoHit st fp "task" true _ _ ft c h2 h3
  · intro fr ft fg c h1 hm1 h2 hm2 h3 h4
    rw [hauto, readGoMiss st fp "run" true [] _ fr h1 hm1,
      readGoMiss st fp "task" true _ _ ft h2 hm2]
    exact readGoHit st fp "global" true _ _ fg c h3 h4
  · intro fr ft fg h1 hm1 h2 hm2 h3 hm3
    rw [hauto, readGoMiss st fp "run" true [] _ fr h1 hm1,
      readGoMiss st fp "task" true _ _ ft h2 hm2,
      readGoMiss st fp "global" true _ _ fg h3 hm3]
    simp only [TaskVFS.readGo, List.nil_append, List.cons_append, List.append_nil]
    rfl
  · intro s full hs h1 hm
    have hnea : s ≠ "auto" := by
      rcases hs with h | h | h <;> subst h <;> decide
    have hrf : TaskVFS.readFile st fp s
        = TaskVFS.readGo st fp (decide (s = "auto")) [] [s] := by
      unfold TaskVFS.readFile
      rw [if_neg hnea]
    rw [hrf, readGoMiss st fp s _ [] [] full h1 hm]
    simp only [TaskVFS.readGo, List.nil_append]

/-- A state holding dup.txt in both the run and global scopes with
different contents, and nothing else. -/
def c2State : VfsState :=
  (TaskVFS.writeFile ((TaskVFS.writeFile exState "dup.txt" "runcopy" "run" {}).1)
    "dup.txt" "globalcopy" "global" {}).1

/-- Claim C2 witness: dup.txt exists in run and global; the auto read
returns the run copy.  A concrete-scope miss reports File not found for
that single scope. -/
theorem C2_witness :
    TaskVFS.readFile c2State "dup.txt" "auto"
      = .ok { content := "runcopy", path := "dup.txt", scope := "run",
              size := "runcopy".utf8ByteSize,
              fullPath := "eco/tasks/t1/runs/r1/fs/dup.txt" }
    ∧ TaskVFS.readFile c2State "missing.txt" "task"
      = .error ("File not found: " ++ "missing.txt" ++ ". Searched: " ++
          String.intercalate ", " ["Not found in " ++ "task" ++ " scope"]) :=
  ⟨(C2_theorem c2State "dup.txt").1 "eco/tasks/t1/runs/r1/fs/dup.txt" "runcopy"
      (by rfl) (by rfl),
   (C2_theorem c2State "missing.txt").2.2.2.2 "task" "eco/tasks/t1/fs/missing.txt"
      (Or.inr (Or.inl rfl)) (by rfl) ⟨by rfl, by rfl⟩⟩

/- ===== Claim C6 ===== -/

/-- Claim C6: delete on a resolvable but absent path fails with the
File-not-found error; delete on a directory removes it and every
descendant, so exists is false afterwards for it and for every child
path resolving under it; delete on a file removes exactly that file,
leaving directories and every other file entry untouched. -/
theorem C6_theorem (st : VfsState) (fp scope full : String)
    (hres : TaskVFS.resolvePath st fp scope = .ok full) :
    (pathExists st full = false →
        TaskVFS.deleteFile st fp scope =
          (st, .error ("Failed to delete " ++ fp ++ ": File not found: " ++ fp)))
    ∧ (st.dirs.contains full = true → lookupFile st.files full = none →
        ∃ st2, TaskVFS.deleteFile st fp scope = (st2, .ok { path := fp, scope })
          ∧ TaskVFS.existsFile st2 fp scope = false
          ∧ (∀ child q, TaskVFS.resolvePath st child scope = .ok q →
              strStartsWith q (full ++ "/") = true →
              TaskVFS.existsFile st2 child scope = false))
    ∧ (∀ c, lookupFile st.files full = some c → st.dirs.contains full = false →
        ∃ st2, TaskVFS.deleteFile st fp scope = (st2, .ok { path := fp, scope })
          ∧ TaskVFS.existsFile st2 fp scope = false
          ∧ st2.dirs = st.dirs
          ∧ (∀ p2, p2 ≠ full →
              lookupFile st2.files p2 = lookupFile st.files p2)) := by
  refine ⟨?_, ?_, ?_⟩
  · intro hpe
    unfold TaskVFS.deleteFile
    simp only [hres]
    rw [if_pos hpe]
  · intro hdir hnone
    have hpe : pathExists st full = true := by
      unfold pathExists
      rw [hnone, hdir]
      rfl
    unfold TaskVFS.deleteFile
    simp only [hres]
    rw [if_neg (by rw [hpe]; simp), if_pos hdir]
    refine ⟨_, rfl, ?_, ?_⟩
    · unfold TaskVFS.existsFile
      have hres2 : TaskVFS.resolvePath
          ({ st with
              dirs := st.dirs.filter
                (fun d => ! (d == full || strStartsWith d (full ++ "/")))
              files := st.files.filter
                (fun e => ! strStartsWith e.1 (full ++ "/")) } : VfsState)
          fp scope = .ok full :=
        (resolvePathRootsEq _ st fp scope rfl rfl rfl).trans hres
      simp only [hres2]
      unfold pathExists
      rw [lookupFilterOfNone st.files _ full hnone,
        containsFilterFalse st.dirs _ full (by simp)]
      rfl
    · intro child q hcq hpre
      unfold TaskVFS.existsFile
      have hres2 : TaskVFS.resolvePath
          ({ st with
              dirs := st.dirs.filter
                (fun d => ! (d == full || strStartsWith d (full ++ "/")))
              files := st.files.filter
                (fun e => ! strStartsWith e.1 (full ++ "/")) } : VfsState)
          child scope = .ok q :=
        (resolvePathRootsEq _ st child scope rfl rfl rfl).trans hcq
      simp only [hres2]
      unfold pathExists
      rw [lookupFilterKeyFalse st.files _ q (by intro v; simp [hpre]),
        containsFilterFalse st.dirs _ q (by simp [hpre])]
      rfl
  · intro c hc hncont
    have hpe : pathExists st full = true := by
      unfold pathExists
      rw [hc]
      rfl
    unfold TaskVFS.deleteFile
    simp only [hres]
    rw [if_neg (by rw [hpe]; simp), if_neg (by rw [hncont]; simp)]
    refine ⟨_, rfl, ?_, rfl, ?_⟩
    · unfold TaskVFS.existsFile
      have hres2 : TaskVFS.resolvePath
          ({ st with files := st.files.filter (fun e => ! (e.1 == full)) } : VfsState)
          fp scope = .ok full :=
        (resolvePathRootsEq _ st fp scope rfl rfl rfl).trans hres
      simp only [hres2]
      unfold pathExists
      rw [lookupFilterKeyFalse st.files _ full (by intro v; simp),
        show ({ st with files := st.files.filter (fun e => ! (e.1 == full)) }
          : VfsState).dirs = st.dirs from rfl, hncont]
      rfl
    · intro p2 hne
      have hb : (p2 == full) = false := by
        cases hb2 : p2 == full
        · rfl
        · exact absurd (eq_of_beq hb2) hne
      exact lookupFilterKeyTrue st.files _ p2 (by intro v; simp [hb])

/-- A state holding the directory d with the nested file d/sub/f.txt in
the run scope. -/
def c6State : VfsState :=
  (TaskVFS.writeFile exState "d/sub/f.txt" "x" "run" {}).1

/-- Claim C6 witness: deleting the directory d removes it together with
its descendants, so any former child path reports as absent. -/
theorem C6_witness :
    ∃ st2, TaskVFS.deleteFile c6State "d" "run"
        = (st2, .ok { path := "d", scope := "run" })
      ∧ TaskVFS.existsFile st2 "d" "run" = false
      ∧ (∀ child q, TaskVFS.resolvePath c6State child "run" = .ok q →
          strStartsWith q ("eco/tasks/t1/runs/r1/fs/d" ++ "/") = true →
          TaskVFS.existsFile st2 child "run" = false) :=
  (C6_theorem c6State "d" "run" "eco/tasks/t1/runs/r1/fs/d" (by rfl)).2.1
    (by rfl) (by rfl)

/- ===== Claim C7 ===== -/

/-- A state whose run scope holds one subdirectory sub containing one
file sub/f.txt. -/
def c7State : VfsState :=
  (TaskVFS.writeFile exState "sub/f.txt" "hi" "run" {}).1

/-- The listing entry of the nested file. -/
def c7FileEntry : Entry :=
  { name := "f.txt", path := "/sub/f.txt", scope := "run", size := 2,
    fullPath := "eco/tasks/t1/runs/r1/fs/sub/f.txt", extension := some ".txt" }

/-- The listing entry of the subdirectory. -/
def c7DirEntry : Entry :=
  { name := "sub", path := "/sub", scope := "run", size := 0,
    fullPath := "eco/tasks/t1/runs/r1/fs/sub", extension := none }

set_option maxRecDepth 10000 in
/-- Claim C7 counterexample: the claim states that the recursive listing
of a tree with one subdirectory containing one file returns both the
subdirectory and the nested file in the aggregated files collection.  In
fact the subdirectory appears only in the directories collection: the
files collection holds exactly the nested file. -/
theorem C7_counterexample :
    HostTools.listFiles 10 c7State "/" "run" true
      = some (.listOk "/" "run" [c7FileEntry] [c7DirEntry] 1)
    ∧ c7DirEntry ∉ [c7FileEntry] := by
  refine ⟨by rfl, by decide⟩

set_option maxRecDepth 10000 in
/-- Claim C7 amended: the recursive listing re-invokes listing on each
discovered subdirectory and concatenates the results, returning the
nested file in the aggregated files collection and the subdirectory in
the aggregated directories collection. -/
theorem C7_amended :
    HostTools.listFiles 10 c7State "/" "run" true
      = some (.listOk "/" "run" [c7FileEntry] [c7DirEntry] 1)
    ∧ c7FileEntry ∈ [c7FileEntry] ∧ c7DirEntry ∈ [c7DirEntry] := by
  refine ⟨by rfl, by decide, by decide⟩

/-- Claim C10 witness: a whitespace-only path passes validation on
writeFile and comes back as a failure envelope mentioning the empty
filepath, while fileExists returns the success envelope. -/
theorem C10_witness :
    HostTools.writeFile exState ⟨[("path", .s "  "), ("content", .s "x")]⟩
      = (exState, .ok (.failure ("Failed to write file " ++ "  " ++ ": " ++
          "Filepath cannot be empty") "writeFile" "  " "run"))
    ∧ HostTools.fileExists exState ⟨[("path", .s "  ")]⟩
      = (exState, .ok (.existsRes false "  " "run")) :=
  ⟨(C10_amended exState "  " "x" [] (by rfl)).1,
   (C10_amended exState "  " "x" [] (by rfl)).2.2.2.2.2.2⟩

end SeqRunner
